import Mathlib

/-!
Shallow embedding of the room-registry and message-routing logic of
`src/app.py` (a Flask-SocketIO text relay server).

The Python registry `active_rooms` is a dict mapping room code to
`{'senders': [...], 'receivers': [...]}`; we model it as an association
list `List (String × Room)` whose operations mirror dict semantics
(lookup finds the first binding, insertion appends at the end, update
rewrites the first binding in place).

`emit` calls and `join_room` (group-subscription) calls performed by the
handlers are returned as data so that theorems can talk about exactly
which events each handler produces.
-/

/-- Membership record of one room: the `senders` and `receivers` lists of
Connection IDs, as in `active_rooms[code] = {'senders': [...], 'receivers': [...]}`. -/
structure Room where
  senders : List String
  receivers : List String
deriving DecidableEq, Repr

/-- The registry `active_rooms`: room code → Room, as an association list. -/
abbrev Registry := List (String × Room)

/-- Dict lookup: first binding of the key wins (`active_rooms[code]` / `in`). -/
def lookup : Registry → String → Option Room
  | [], _ => none
  | (c, r) :: rest, rc => if c = rc then some r else lookup rest rc

/-- Dict update of an existing key in place; appends if the key is absent
(the handlers only call it on keys made present by `ensureRoom`). -/
def setRoom : Registry → String → Room → Registry
  | [], rc, r => [(rc, r)]
  | (c, r0) :: rest, rc, r =>
    if c = rc then (c, r) :: rest else (c, r0) :: setRoom rest rc r

/-- `if room_code not in active_rooms: active_rooms[room_code] = {'senders': [], 'receivers': []}`:
dict insertion appends the new key at the end. -/
def ensureRoom (reg : Registry) (rc : String) : Registry :=
  match lookup reg rc with
  | some _ => reg
  | none => reg ++ [(rc, ⟨[], []⟩)]

/-- Python truthiness of `data.get(key)` for string payload fields:
falsy iff the key is missing or the string is empty. -/
def truthy : Option String → Bool
  | none => false
  | some s => if s = "" then false else true

/-- Destination of an `emit` call: the requesting connection (default `emit`),
a broadcast group (`to=...`), or a group excluding one sid (`to=..., skip_sid=...`). -/
inductive Target where
  | conn (sid : String)
  | group (name : String)
  | groupSkip (name : String) (skip : String)
deriving DecidableEq, Repr

/-- Inbound payload of `send_text`: `data.get('code')`, `data.get('text', '')`. -/
structure TextData where
  code : Option String
  text : Option String
deriving DecidableEq, Repr

/-- Inbound payload of `send_live_control`: `data.get('code')`, `data.get('control')`. -/
structure ControlData where
  code : Option String
  control : Option String
deriving DecidableEq, Repr

/-- Inbound payload of `join_room`: `data.get('code')`, `data.get('type')`. -/
structure JoinData where
  code : Option String
  type : Option String
deriving DecidableEq, Repr

/-- Payloads of the events the handlers emit. `textData`/`controlData` carry
the full inbound payload, matching `emit('receive_text', data, ...)`. -/
inductive Payload where
  | message (text : String)
  | roomStatus (status message : String)
  | roomJoined (message type : String) (room_active has_sender has_receiver : Bool)
  | textData (d : TextData)
  | controlData (d : ControlData)
deriving DecidableEq, Repr

/-- One `emit(event, payload, target)` call. -/
structure Emit where
  event : String
  payload : Payload
  target : Target
deriving DecidableEq, Repr

/-- Result of the `join_room` handler: the new registry, the emitted events in
order, and the group subscriptions (`join_room(group)` calls) as (sid, group). -/
structure JoinOut where
  reg : Registry
  emits : List Emit
  subs : List (String × String)
deriving DecidableEq, Repr

/-- `if sid not in room[key]: room[key].append(sid)`. -/
def addIfAbsent (sid : String) (l : List String) : List String :=
  if sid ∈ l then l else l ++ [sid]

/-- The `join_room` handler `on_join` of `src/app.py`, lines 72-121. -/
def on_join (sid : String) (d : JoinData) (reg : Registry) : JoinOut :=
  if truthy d.code = false || truthy d.type = false then
    ⟨reg, [⟨"error", Payload.message "Invalid room code or device type", Target.conn sid⟩], []⟩
  else
    let rc := d.code.getD ""
    let dt := d.type.getD ""
    let reg1 := ensureRoom reg rc
    let room := (lookup reg1 rc).getD ⟨[], []⟩
    let room' :=
      if dt = "sender" then { room with senders := addIfAbsent sid room.senders }
      else if dt = "receiver" then { room with receivers := addIfAbsent sid room.receivers }
      else room
    let subs :=
      if dt = "sender" then [(sid, rc)]
      else if dt = "receiver" then [(sid, rc), (sid, rc ++ "_recv")]
      else []
    let reg2 := setRoom reg1 rc room'
    let has_sender := !room'.senders.isEmpty
    let has_receiver := !room'.receivers.isEmpty
    let room_active := has_sender && has_receiver
    ⟨reg2,
     ⟨"room_joined", Payload.roomJoined (dt ++ " joined") dt room_active has_sender has_receiver,
       Target.conn sid⟩
       :: (if room_active then
            [⟨"room_status", Payload.roomStatus "active" "Both sender and receiver connected",
              Target.groupSkip rc sid⟩]
           else []),
     subs⟩

/-- The `room_status {status: 'sender_left'}` emission of `handle_disconnect`. -/
def senderLeftEmit (rc : String) : Emit :=
  ⟨"room_status", Payload.roomStatus "sender_left" "Sender has left the room",
    Target.group (rc ++ "_recv")⟩

/-- Per-room removal done by `handle_disconnect` (lines 52-65): remove `sid`
from `senders` if present (`list.remove` drops the first occurrence, as
`List.erase` does) and likewise from `receivers`. -/
def discRoom (sid : String) (room : Room) : Room :=
  ⟨if sid ∈ room.senders then room.senders.erase sid else room.senders,
   if sid ∈ room.receivers then room.receivers.erase sid else room.receivers⟩

/-- The `disconnect` handler `handle_disconnect` of `src/app.py`, lines 44-70.
It iterates over a snapshot of the room codes; for each room it removes `sid`
from `senders` (emitting `sender_left` to the `_recv` group when the receivers
list is non-empty at that point, i.e. before `sid` is removed from `receivers`)
and from `receivers`, then deletes the room when both lists are empty — note
the source runs this emptiness check for every room, not only ones `sid` was in. -/
def handle_disconnect (sid : String) : Registry → Registry × List Emit
  | [] => ([], [])
  | (rc, room) :: rest =>
    let ems :=
      if sid ∈ room.senders ∧ room.receivers ≠ [] then [senderLeftEmit rc] else []
    let room' := discRoom sid room
    let r := handle_disconnect sid rest
    if room'.senders = [] ∧ room'.receivers = [] then (r.1, ems ++ r.2)
    else ((rc, room') :: r.1, ems ++ r.2)

/-- The `send_text` handler `handle_text` of `src/app.py`, lines 123-135. -/
def handle_text (sid : String) (d : TextData) (reg : Registry) : List Emit :=
  if truthy d.code = true ∧ d.text.getD "" ≠ "" then
    let rc := d.code.getD ""
    match lookup reg rc with
    | some room =>
      if room.receivers ≠ [] then
        [⟨"receive_text", Payload.textData d, Target.group (rc ++ "_recv")⟩]
      else [⟨"error", Payload.message "No receivers in room", Target.conn sid⟩]
    | none => [⟨"error", Payload.message "No receivers in room", Target.conn sid⟩]
  else []

/-- The `send_live_control` handler `handle_live_control` of `src/app.py`, lines 137-151. -/
def handle_live_control (sid : String) (d : ControlData) (reg : Registry) : List Emit :=
  if truthy d.code = false || truthy d.control = false then
    [⟨"error", Payload.message "Invalid live control payload", Target.conn sid⟩]
  else
    let rc := d.code.getD ""
    match lookup reg rc with
    | some room =>
      if room.receivers ≠ [] then
        [⟨"receive_live_control", Payload.controlData d, Target.group (rc ++ "_recv")⟩]
      else [⟨"error", Payload.message "No receivers in room", Target.conn sid⟩]
    | none => [⟨"error", Payload.message "No receivers in room", Target.conn sid⟩]

/-- One inbound operation on the registry. -/
inductive Op where
  | join (sid : String) (d : JoinData)
  | disc (sid : String)
  | text (sid : String) (d : TextData)
  | live (sid : String) (d : ControlData)
deriving DecidableEq, Repr

/-- Registry effect of one operation (`send_text` and `send_live_control`
never mutate the registry). -/
def applyOp (reg : Registry) : Op → Registry
  | Op.join sid d => (on_join sid d reg).reg
  | Op.disc sid => (handle_disconnect sid reg).1
  | Op.text _ _ => reg
  | Op.live _ _ => reg

/-- Registry reached by a sequence of operations. -/
def run (ops : List Op) (reg : Registry) : Registry := ops.foldl applyOp reg

/-- Registry invariant claimed by the spec: every room entry has at least
one non-empty role-set. -/
def roomNonemptyInv (reg : Registry) : Prop :=
  ∀ p ∈ reg, p.2.senders ≠ [] ∨ p.2.receivers ≠ []

instance (reg : Registry) : Decidable (roomNonemptyInv reg) :=
  inferInstanceAs (Decidable (∀ p ∈ reg, p.2.senders ≠ [] ∨ p.2.receivers ≠ []))

/-- Registry invariant claimed by the spec: no Connection ID is in both
role-sets of the same room. -/
def disjointInv (reg : Registry) : Prop :=
  ∀ p ∈ reg, ∀ s ∈ p.2.senders, s ∉ p.2.receivers

instance (reg : Registry) : Decidable (disjointInv reg) :=
  inferInstanceAs (Decidable (∀ p ∈ reg, ∀ s ∈ p.2.senders, s ∉ p.2.receivers))

/-! ### Association-list lemmas -/

theorem lookup_setRoom_self (reg : Registry) (rc : String) (r : Room) :
    lookup (setRoom reg rc r) rc = some r := by
  induction reg with
  | nil => simp [setRoom, lookup]
  | cons p rest ih =>
    obtain ⟨c, r0⟩ := p
    by_cases h : c = rc <;> simp [setRoom, lookup, h, ih]

theorem setRoom_self (reg : Registry) (rc : String) (r : Room)
    (h : lookup reg rc = some r) : setRoom reg rc r = reg := by
  induction reg with
  | nil => simp [lookup] at h
  | cons p rest ih =>
    obtain ⟨c, r0⟩ := p
    by_cases hc : c = rc
    · simp [lookup, hc] at h
      simp [setRoom, hc, h]
    · simp [lookup, hc] at h
      simp [setRoom, hc, ih h]

theorem mem_setRoom {reg : Registry} {rc : String} {r : Room} {p : String × Room}
    (h : p ∈ setRoom reg rc r) : p = (rc, r) ∨ p ∈ reg := by
  induction reg with
  | nil => simp [setRoom] at h; simp [h]
  | cons q rest ih =>
    obtain ⟨c, r0⟩ := q
    by_cases hc : c = rc
    · simp [setRoom, hc] at h
      rcases h with h | h
      · left; simp [h]
      · right; simp [h]
    · simp [setRoom, hc] at h
      rcases h with h | h
      · right; simp [h]
      · rcases ih h with h' | h'
        · left; exact h'
        · right; simp [h']

theorem lookup_mem {reg : Registry} {rc : String} {r : Room}
    (h : lookup reg rc = some r) : (rc, r) ∈ reg := by
  induction reg with
  | nil => simp [lookup] at h
  | cons p rest ih =>
    obtain ⟨c, r0⟩ := p
    by_cases hc : c = rc
    · simp [lookup, hc] at h
      simp [hc, h]
    · simp [lookup, hc] at h
      simp [ih h]

theorem lookup_append_none {a b : Registry} {rc : String}
    (h : lookup a rc = none) : lookup (a ++ b) rc = lookup b rc := by
  induction a with
  | nil => simp
  | cons p rest ih =>
    obtain ⟨c, r0⟩ := p
    by_cases hc : c = rc
    · simp [lookup, hc] at h
    · simp [lookup, hc] at h ⊢
      exact ih h

theorem setRoom_append_none {reg : Registry} {rc : String} {e r : Room}
    (h : lookup reg rc = none) :
    setRoom (reg ++ [(rc, e)]) rc r = reg ++ [(rc, r)] := by
  induction reg with
  | nil => simp [setRoom]
  | cons p rest ih =>
    obtain ⟨c, r0⟩ := p
    by_cases hc : c = rc
    · simp [lookup, hc] at h
    · simp [lookup, hc] at h
      simp [setRoom, hc, ih h]

theorem setRoom_ensureRoom_none {reg : Registry} {rc : String} {r : Room}
    (h : lookup reg rc = none) :
    setRoom (ensureRoom reg rc) rc r = reg ++ [(rc, r)] := by
  unfold ensureRoom
  rw [h]
  exact setRoom_append_none h

theorem setRoom_ensureRoom_some {reg : Registry} {rc : String} {r0 r : Room}
    (h : lookup reg rc = some r0) :
    setRoom (ensureRoom reg rc) rc r = setRoom reg rc r := by
  unfold ensureRoom
  rw [h]

theorem lookup_ensureRoom (reg : Registry) (rc : String) :
    lookup (ensureRoom reg rc) rc = some ((lookup reg rc).getD ⟨[], []⟩) := by
  unfold ensureRoom
  cases h : lookup reg rc with
  | none => rw [lookup_append_none h]; simp [lookup]
  | some r0 => simp [h]

/-! ### addIfAbsent lemmas -/

theorem mem_addIfAbsent_self (sid : String) (l : List String) :
    sid ∈ addIfAbsent sid l := by
  unfold addIfAbsent
  by_cases h : sid ∈ l <;> simp [h]

theorem addIfAbsent_ne_nil (sid : String) (l : List String) :
    addIfAbsent sid l ≠ [] := by
  intro h
  have := mem_addIfAbsent_self sid l
  rw [h] at this
  simp at this

theorem mem_addIfAbsent {s sid : String} {l : List String}
    (h : s ∈ addIfAbsent sid l) : s = sid ∨ s ∈ l := by
  unfold addIfAbsent at h
  by_cases hm : sid ∈ l
  · simp [hm] at h; right; exact h
  · simp [hm] at h
    rcases h with h | h
    · right; exact h
    · left; exact h

theorem addIfAbsent_of_mem {sid : String} {l : List String}
    (h : sid ∈ l) : addIfAbsent sid l = l := by
  simp [addIfAbsent, h]

theorem nodup_addIfAbsent {sid : String} {l : List String}
    (h : l.Nodup) : (addIfAbsent sid l).Nodup := by
  unfold addIfAbsent
  by_cases hm : sid ∈ l
  · simp [hm, h]
  · simp [hm, List.nodup_append, h]

/-! ### handle_disconnect characterization -/

theorem handle_disconnect_fst (sid : String) (reg : Registry) :
    (handle_disconnect sid reg).1 = reg.filterMap (fun p =>
      if (discRoom sid p.2).senders = [] ∧ (discRoom sid p.2).receivers = [] then none
      else some (p.1, discRoom sid p.2)) := by
  induction reg with
  | nil => rfl
  | cons p rest ih =>
    obtain ⟨rc, room⟩ := p
    by_cases h : (discRoom sid room).senders = [] ∧ (discRoom sid room).receivers = [] <;>
      simp [handle_disconnect, h, ih, List.filterMap_cons]

theorem handle_disconnect_snd (sid : String) (reg : Registry) :
    (handle_disconnect sid reg).2 = reg.flatMap (fun p =>
      if sid ∈ p.2.senders ∧ p.2.receivers ≠ [] then [senderLeftEmit p.1] else []) := by
  induction reg with
  | nil => rfl
  | cons p rest ih =>
    obtain ⟨rc, room⟩ := p
    by_cases h : (discRoom sid room).senders = [] ∧ (discRoom sid room).receivers = [] <;>
      simp [handle_disconnect, h, ih]

theorem handle_disconnect_noop (sid : String) (reg : Registry)
    (h : ∀ p ∈ reg, (sid ∉ p.2.senders ∧ sid ∉ p.2.receivers) ∧
          (p.2.senders ≠ [] ∨ p.2.receivers ≠ [])) :
    handle_disconnect sid reg = (reg, []) := by
  induction reg with
  | nil => rfl
  | cons p rest ih =>
    obtain ⟨rc, room⟩ := p
    have hp := h (rc, room) (by simp)
    have hrest := ih (fun q hq => h q (by simp [hq]))
    have hdisc : discRoom sid room = room := by
      simp [discRoom, hp.1.1, hp.1.2]
    rcases hp.2 with hne | hne <;>
      simp [handle_disconnect, hdisc, hne, hrest, hp.1.1]

/-! ### on_join characterization -/

/-- Room update performed by a valid join of role `dt` (lines 89-100):
`sender` and `receiver` get an idempotent append to their list, any other
non-empty role string changes nothing. -/
def joinRoomUpd (sid dt : String) (room : Room) : Room :=
  if dt = "sender" then { room with senders := addIfAbsent sid room.senders }
  else if dt = "receiver" then { room with receivers := addIfAbsent sid room.receivers }
  else room

theorem on_join_invalid (sid : String) (d : JoinData) (reg : Registry)
    (h : truthy d.code = false ∨ truthy d.type = false) :
    on_join sid d reg =
      ⟨reg, [⟨"error", Payload.message "Invalid room code or device type", Target.conn sid⟩],
        []⟩ := by
  rcases h with h | h <;> simp [on_join, h]

theorem on_join_reg_valid (sid : String) (d : JoinData) (reg : Registry)
    (hc : truthy d.code = true) (ht : truthy d.type = true) :
    (on_join sid d reg).reg =
      setRoom (ensureRoom reg (d.code.getD "")) (d.code.getD "")
        (joinRoomUpd sid (d.type.getD "")
          ((lookup (ensureRoom reg (d.code.getD "")) (d.code.getD "")).getD ⟨[], []⟩)) := by
  simp [on_join, hc, ht, joinRoomUpd]

theorem mem_on_join_reg {sid : String} {d : JoinData} {reg : Registry} {p : String × Room}
    (hc : truthy d.code = true) (ht : truthy d.type = true)
    (h : p ∈ (on_join sid d reg).reg) :
    p ∈ reg ∨ ∃ room, p = (d.code.getD "", joinRoomUpd sid (d.type.getD "") room) ∧
      ((d.code.getD "", room) ∈ reg ∨ room = ⟨[], []⟩) := by
  rw [on_join_reg_valid sid d reg hc ht] at h
  cases hl : lookup reg (d.code.getD "") with
  | none =>
    rw [setRoom_ensureRoom_none hl] at h
    rcases List.mem_append.mp h with h' | h'
    · left; exact h'
    · right
      refine ⟨⟨[], []⟩, ?_, Or.inr rfl⟩
      have : lookup (ensureRoom reg (d.code.getD "")) (d.code.getD "") = some ⟨[], []⟩ := by
        rw [lookup_ensureRoom, hl]; rfl
      rw [this] at h'
      simpa using h'
  | some r0 =>
    have hens : ensureRoom reg (d.code.getD "") = reg := by simp [ensureRoom, hl]
    rw [hens, hl] at h
    rcases mem_setRoom h with h' | h'
    · right; exact ⟨r0, h', Or.inl (lookup_mem hl)⟩
    · left; exact h'

/-! ### Registry invariant: rooms non-empty -/

/-- A join operation is role-well-formed when, if it passes the handler's
non-emptiness validation, its type is one of the two real roles. -/
def joinOpOk : Op → Prop
  | Op.join _ d =>
      truthy d.code = true → truthy d.type = true →
        d.type = some "sender" ∨ d.type = some "receiver"
  | _ => True

instance : (o : Op) → Decidable (joinOpOk o)
  | Op.join _ d =>
      inferInstanceAs (Decidable (truthy d.code = true → truthy d.type = true →
        d.type = some "sender" ∨ d.type = some "receiver"))
  | Op.disc _ => inferInstanceAs (Decidable True)
  | Op.text _ _ => inferInstanceAs (Decidable True)
  | Op.live _ _ => inferInstanceAs (Decidable True)

theorem joinRoomUpd_nonempty_sender (sid : String) (room : Room) :
    (joinRoomUpd sid "sender" room).senders ≠ [] := by
  simp [joinRoomUpd]
  exact addIfAbsent_ne_nil sid room.senders

theorem joinRoomUpd_nonempty_receiver (sid : String) (room : Room) :
    (joinRoomUpd sid "receiver" room).receivers ≠ [] := by
  simp [joinRoomUpd]
  exact addIfAbsent_ne_nil sid room.receivers

theorem applyOp_nonempty {reg : Registry} {op : Op}
    (hInv : roomNonemptyInv reg) (hok : joinOpOk op) :
    roomNonemptyInv (applyOp reg op) := by
  cases op with
  | join sid d =>
    by_cases hc : truthy d.code = true
    · by_cases ht : truthy d.type = true
      · intro p hp
        rcases mem_on_join_reg hc ht hp with h' | ⟨room, hpe, _⟩
        · exact hInv p h'
        · rcases hok hc ht with hrole | hrole
          · have hdt : d.type.getD "" = "sender" := by rw [hrole]; rfl
            rw [hpe, hdt]
            exact Or.inl (joinRoomUpd_nonempty_sender sid room)
          · have hdt : d.type.getD "" = "receiver" := by rw [hrole]; rfl
            rw [hpe, hdt]
            exact Or.inr (joinRoomUpd_nonempty_receiver sid room)
      · have := on_join_invalid sid d reg (Or.inr (by simpa using ht))
        simp only [applyOp, this]
        exact hInv
    · have := on_join_invalid sid d reg (Or.inl (by simpa using hc))
      simp only [applyOp, this]
      exact hInv
  | disc sid =>
    intro p hp
    simp only [applyOp, handle_disconnect_fst] at hp
    rcases List.mem_filterMap.mp hp with ⟨q, _, hq⟩
    by_cases h : (discRoom sid q.2).senders = [] ∧ (discRoom sid q.2).receivers = []
    · simp [h] at hq
    · simp [h] at hq
      rw [← hq]
      by_cases hs : (discRoom sid q.2).senders = []
      · exact Or.inr (fun hr => h ⟨hs, hr⟩)
      · exact Or.inl hs
  | text sid d => exact hInv
  | live sid d => exact hInv

theorem roomNonemptyInv_run {ops : List Op} {reg : Registry}
    (h0 : roomNonemptyInv reg) (hok : ∀ o ∈ ops, joinOpOk o) :
    roomNonemptyInv (run ops reg) := by
  induction ops generalizing reg with
  | nil => exact h0
  | cons o rest ih =>
    exact ih (applyOp_nonempty h0 (hok o (by simp)))
      (fun o' ho' => hok o' (by simp [ho']))

/-! ### Claim C1 -/

/-- C1, counterexample: the claim fails as stated. A single `join_room` with a
non-empty code and the non-empty but unknown type "observer" passes the
handler's validation, creates the room entry, and adds the connection to
neither role-set, leaving a registry entry whose senders and receivers are
both empty. -/
theorem c1_counterexample :
    ¬ roomNonemptyInv (run [Op.join "A" ⟨some "R", some "observer"⟩] []) := by
  decide

/-- C1, amended: starting from the empty registry, after every sequence of
operations in which every `join_room` that passes validation carries type
"sender" or "receiver", a room entry exists only while at least one of its
two role-sets is non-empty; no such operation leaves a room entry whose
senders and receivers are both empty. -/
theorem c1_registry_nonempty (ops : List Op) (hok : ∀ o ∈ ops, joinOpOk o) :
    roomNonemptyInv (run ops []) :=
  roomNonemptyInv_run (fun p hp => absurd hp (List.not_mem_nil p)) hok

/-- C1, witness for the amended theorem at a concrete operation sequence. -/
theorem c1_witness :
    (∀ o ∈ [Op.join "A" ⟨some "R", some "sender"⟩,
            Op.join "B" ⟨some "R", some "receiver"⟩, Op.disc "A"], joinOpOk o) ∧
    roomNonemptyInv (run [Op.join "A" ⟨some "R", some "sender"⟩,
            Op.join "B" ⟨some "R", some "receiver"⟩, Op.disc "A"] []) :=
  ⟨by decide, c1_registry_nonempty _ (by decide)⟩

/-! ### Claim C2 -/

/-- C2, counterexample: the claim fails as stated. A `join_room` with the
non-empty code "R" and the non-empty type "observer" — not a valid role —
does not produce the error event: it mutates the registry (creating room "R")
and emits a `room_joined` event instead of an `error`. -/
theorem c2_counterexample :
    (on_join "A" ⟨some "R", some "observer"⟩ []).reg = [("R", ⟨[], []⟩)] ∧
    ∀ e ∈ (on_join "A" ⟨some "R", some "observer"⟩ []).emits, e.event ≠ "error" := by
  decide

/-- C2, amended: for every `join_room` request in which `code` is
empty/missing or `type` is empty/missing (the handler validates only
non-emptiness, not membership in {"sender","receiver"}), the handler emits
exactly one `error` event with message "Invalid room code or device type" to
the requesting connection, does not mutate the registry, and subscribes no
group. -/
theorem c2_invalid_join_error (sid : String) (d : JoinData) (reg : Registry)
    (h : truthy d.code = false ∨ truthy d.type = false) :
    on_join sid d reg =
      ⟨reg, [⟨"error", Payload.message "Invalid room code or device type", Target.conn sid⟩],
        []⟩ :=
  on_join_invalid sid d reg h

/-- C2, witness for the amended theorem at a concrete input (empty code). -/
theorem c2_witness :
    (truthy (some "") = false ∨ truthy (some "sender") = false) ∧
    on_join "A" ⟨some "", some "sender"⟩ [("Q", ⟨["B"], []⟩)] =
      ⟨[("Q", ⟨["B"], []⟩)],
       [⟨"error", Payload.message "Invalid room code or device type", Target.conn "A"⟩], []⟩ :=
  ⟨Or.inl (by decide), c2_invalid_join_error "A" ⟨some "", some "sender"⟩ _ (Or.inl (by decide))⟩

/-! ### Claim C9 -/

/-- C9: a `join_room` request with missing or empty `code`, or missing or
empty `type`, produces only the error reply to the requester: the registry is
returned unchanged, the emission list is exactly the one error event, and no
group subscription is made. -/
theorem c9_join_missing_fields (sid : String) (d : JoinData) (reg : Registry)
    (h : truthy d.code = false ∨ truthy d.type = false) :
    (on_join sid d reg).reg = reg ∧
    (on_join sid d reg).emits =
      [⟨"error", Payload.message "Invalid room code or device type", Target.conn sid⟩] ∧
    (on_join sid d reg).subs = [] := by
  rw [on_join_invalid sid d reg h]
  exact ⟨rfl, rfl, rfl⟩

/-- C9, witness at a concrete input (missing type). -/
theorem c9_witness :
    (truthy (some "R") = false ∨ truthy (none : Option String) = false) ∧
    ((on_join "A" ⟨some "R", none⟩ [("R", ⟨["B"], []⟩)]).reg = [("R", ⟨["B"], []⟩)] ∧
     (on_join "A" ⟨some "R", none⟩ [("R", ⟨["B"], []⟩)]).emits =
       [⟨"error", Payload.message "Invalid room code or device type", Target.conn "A"⟩] ∧
     (on_join "A" ⟨some "R", none⟩ [("R", ⟨["B"], []⟩)]).subs = []) :=
  ⟨Or.inr rfl, c9_join_missing_fields "A" ⟨some "R", none⟩ _ (Or.inr rfl)⟩

/-! ### Valid join output characterization -/

theorem on_join_valid_out (sid : String) (d : JoinData) (reg : Registry)
    (hc : truthy d.code = true) (ht : truthy d.type = true) :
    on_join sid d reg =
      ⟨setRoom (ensureRoom reg (d.code.getD "")) (d.code.getD "")
         (joinRoomUpd sid (d.type.getD "") ((lookup reg (d.code.getD "")).getD ⟨[], []⟩)),
       ⟨"room_joined",
        Payload.roomJoined (d.type.getD "" ++ " joined") (d.type.getD "")
          (!(joinRoomUpd sid (d.type.getD "")
              ((lookup reg (d.code.getD "")).getD ⟨[], []⟩)).senders.isEmpty &&
           !(joinRoomUpd sid (d.type.getD "")
              ((lookup reg (d.code.getD "")).getD ⟨[], []⟩)).receivers.isEmpty)
          (!(joinRoomUpd sid (d.type.getD "")
              ((lookup reg (d.code.getD "")).getD ⟨[], []⟩)).senders.isEmpty)
          (!(joinRoomUpd sid (d.type.getD "")
              ((lookup reg (d.code.getD "")).getD ⟨[], []⟩)).receivers.isEmpty),
        Target.conn sid⟩
        :: (if !(joinRoomUpd sid (d.type.getD "")
                  ((lookup reg (d.code.getD "")).getD ⟨[], []⟩)).senders.isEmpty &&
               !(joinRoomUpd sid (d.type.getD "")
                  ((lookup reg (d.code.getD "")).getD ⟨[], []⟩)).receivers.isEmpty then
             [⟨"room_status", Payload.roomStatus "active" "Both sender and receiver connected",
               Target.groupSkip (d.code.getD "") sid⟩]
            else []),
       if d.type.getD "" = "sender" then [(sid, d.code.getD "")]
       else if d.type.getD "" = "receiver" then
         [(sid, d.code.getD ""), (sid, d.code.getD "" ++ "_recv")]
       else []⟩ := by
  simp [on_join, hc, ht, joinRoomUpd, lookup_ensureRoom]

/-! ### Claim C6 -/

/-- C6: on every join_room that passes validation (non-empty code and type),
the joining connection receives a `room_joined` reply whose `has_sender` /
`has_receiver` fields are the non-emptiness of the room's role-sets evaluated
after the join, and `room_active` is their conjunction; the
`room_status {status:"active"}` broadcast to the room group excluding the
joining connection is present exactly when `room_active` is true after this
join. -/
theorem c6_room_joined_reply (sid : String) (d : JoinData) (reg : Registry)
    (hc : truthy d.code = true) (ht : truthy d.type = true) :
    ∃ room, lookup (on_join sid d reg).reg (d.code.getD "") = some room ∧
      (on_join sid d reg).emits =
        ⟨"room_joined",
         Payload.roomJoined (d.type.getD "" ++ " joined") (d.type.getD "")
           (!room.senders.isEmpty && !room.receivers.isEmpty)
           (!room.senders.isEmpty) (!room.receivers.isEmpty),
         Target.conn sid⟩
        :: (if !room.senders.isEmpty && !room.receivers.isEmpty then
             [⟨"room_status", Payload.roomStatus "active" "Both sender and receiver connected",
               Target.groupSkip (d.code.getD "") sid⟩]
            else []) := by
  rw [on_join_valid_out sid d reg hc ht]
  exact ⟨joinRoomUpd sid (d.type.getD "") ((lookup reg (d.code.getD "")).getD ⟨[], []⟩),
    lookup_setRoom_self _ _ _, rfl⟩

/-- C6, witness: room "R" already has sender "A"; "B" joins as receiver, the
reply carries room_active = true and the "active" broadcast (to group "R",
skipping "B") is emitted. -/
theorem c6_witness :
    (truthy (some "R") = true ∧ truthy (some "receiver") = true) ∧
    (∃ room,
      lookup (on_join "B" ⟨some "R", some "receiver"⟩ [("R", ⟨["A"], []⟩)]).reg "R" = some room ∧
      (on_join "B" ⟨some "R", some "receiver"⟩ [("R", ⟨["A"], []⟩)]).emits =
        ⟨"room_joined",
         Payload.roomJoined ("receiver" ++ " joined") "receiver"
           (!room.senders.isEmpty && !room.receivers.isEmpty)
           (!room.senders.isEmpty) (!room.receivers.isEmpty),
         Target.conn "B"⟩
        :: (if !room.senders.isEmpty && !room.receivers.isEmpty then
             [⟨"room_status", Payload.roomStatus "active" "Both sender and receiver connected",
               Target.groupSkip "R" "B"⟩]
            else [])) :=
  ⟨⟨by decide, by decide⟩,
   c6_room_joined_reply "B" ⟨some "R", some "receiver"⟩ [("R", ⟨["A"], []⟩)]
     (by decide) (by decide)⟩

/-! ### Claim C10 -/

/-- C10: a join_room with non-empty code and a non-empty type that is neither
"sender" nor "receiver" subscribes no group, emits no error, creates the room
entry (with both role-sets empty) when absent and otherwise leaves the
registry unchanged, and replies `room_joined` echoing the given type with
room_active / has_sender / has_receiver computed from the unchanged
membership. -/
theorem c10_unknown_role_join (sid : String) (d : JoinData) (reg : Registry)
    (hc : truthy d.code = true) (ht : truthy d.type = true)
    (hs : d.type.getD "" ≠ "sender") (hr : d.type.getD "" ≠ "receiver") :
    (on_join sid d reg).subs = [] ∧
    (∀ e ∈ (on_join sid d reg).emits, e.event ≠ "error") ∧
    (on_join sid d reg).reg =
      (match lookup reg (d.code.getD "") with
       | none => reg ++ [(d.code.getD "", ⟨[], []⟩)]
       | some _ => reg) ∧
    (on_join sid d reg).emits =
      ⟨"room_joined",
       Payload.roomJoined (d.type.getD "" ++ " joined") (d.type.getD "")
         (!((lookup reg (d.code.getD "")).getD ⟨[], []⟩).senders.isEmpty &&
          !((lookup reg (d.code.getD "")).getD ⟨[], []⟩).receivers.isEmpty)
         (!((lookup reg (d.code.getD "")).getD ⟨[], []⟩).senders.isEmpty)
         (!((lookup reg (d.code.getD "")).getD ⟨[], []⟩).receivers.isEmpty),
       Target.conn sid⟩
      :: (if !((lookup reg (d.code.getD "")).getD ⟨[], []⟩).senders.isEmpty &&
             !((lookup reg (d.code.getD "")).getD ⟨[], []⟩).receivers.isEmpty then
           [⟨"room_status", Payload.roomStatus "active" "Both sender and receiver connected",
             Target.groupSkip (d.code.getD "") sid⟩]
          else []) := by
  have hupd : joinRoomUpd sid (d.type.getD "") ((lookup reg (d.code.getD "")).getD ⟨[], []⟩) =
      (lookup reg (d.code.getD "")).getD ⟨[], []⟩ := by
    simp [joinRoomUpd, hs, hr]
  rw [on_join_valid_out sid d reg hc ht]
  refine ⟨by simp [hs, hr], ?_, ?_, by rw [hupd]⟩
  · intro e he
    simp only [hupd] at he
    rcases List.mem_cons.mp he with he | he
    · simp [he]
    · by_cases hact : !((lookup reg (d.code.getD "")).getD ⟨[], []⟩).senders.isEmpty &&
          !((lookup reg (d.code.getD "")).getD ⟨[], []⟩).receivers.isEmpty
      · simp [hact] at he
        simp [he]
      · simp [hact] at he
  · rw [hupd]
    cases hl : lookup reg (d.code.getD "") with
    | none =>
      rw [setRoom_ensureRoom_none hl]
      rfl
    | some r0 =>
      have hens : ensureRoom reg (d.code.getD "") = reg := by simp [ensureRoom, hl]
      rw [hens]
      simp only [Option.getD_some]
      exact setRoom_self reg _ r0 hl

/-- C10, witness at a concrete input: type "observer" on an absent room. -/
theorem c10_witness :
    (truthy (some "R") = true ∧ truthy (some "observer") = true ∧
      "observer" ≠ "sender" ∧ "observer" ≠ "receiver") ∧
    ((on_join "A" ⟨some "R", some "observer"⟩ []).subs = [] ∧
     (∀ e ∈ (on_join "A" ⟨some "R", some "observer"⟩ []).emits, e.event ≠ "error") ∧
     (on_join "A" ⟨some "R", some "observer"⟩ []).reg =
       (match lookup [] "R" with
        | none => ([] : Registry) ++ [("R", ⟨[], []⟩)]
        | some _ => ([] : Registry)) ∧
     (on_join "A" ⟨some "R", some "observer"⟩ []).emits =
       ⟨"room_joined",
        Payload.roomJoined ("observer" ++ " joined") "observer"
          (!((lookup [] "R").getD ⟨[], []⟩).senders.isEmpty &&
           !((lookup [] "R").getD ⟨[], []⟩).receivers.isEmpty)
          (!((lookup [] "R").getD ⟨[], []⟩).senders.isEmpty)
          (!((lookup [] "R").getD ⟨[], []⟩).receivers.isEmpty),
        Target.conn "A"⟩
       :: (if !((lookup [] "R").getD ⟨[], []⟩).senders.isEmpty &&
              !((lookup [] "R").getD ⟨[], []⟩).receivers.isEmpty then
            [⟨"room_status", Payload.roomStatus "active" "Both sender and receiver connected",
              Target.groupSkip "R" "A"⟩]
           else [])) :=
  ⟨⟨by decide, by decide, by decide, by decide⟩,
   c10_unknown_role_join "A" ⟨some "R", some "observer"⟩ []
     (by decide) (by decide) (by decide) (by decide)⟩

/-! ### Claim C4 -/

/-- C4: `send_text` behavior. If `code` is falsy or the (defaulted) `text` is
empty, nothing is emitted (silent no-op). If both are non-empty and the room
exists with at least one receiver, exactly the full original payload is
relayed as `receive_text` to the `{code}_recv` group (and no error). Otherwise
— room absent or receivers empty — exactly one error "No receivers in room"
goes back to the sending connection. -/
theorem c4_send_text (sid : String) (d : TextData) (reg : Registry) :
    ((truthy d.code = false ∨ d.text.getD "" = "") → handle_text sid d reg = []) ∧
    (truthy d.code = true → d.text.getD "" ≠ "" →
      ∀ room, lookup reg (d.code.getD "") = some room → room.receivers ≠ [] →
        handle_text sid d reg =
          [⟨"receive_text", Payload.textData d, Target.group (d.code.getD "" ++ "_recv")⟩]) ∧
    (truthy d.code = true → d.text.getD "" ≠ "" →
      (∀ room, lookup reg (d.code.getD "") = some room → room.receivers = []) →
      handle_text sid d reg =
        [⟨"error", Payload.message "No receivers in room", Target.conn sid⟩]) := by
  refine ⟨?_, ?_, ?_⟩
  · intro h
    rcases h with h | h <;> simp [handle_text, h]
  · intro hc htext room hl hrecv
    simp [handle_text, hc, htext, hl, hrecv]
  · intro hc htext hno
    cases hl : lookup reg (d.code.getD "") with
    | none => simp [handle_text, hc, htext, hl]
    | some room => simp [handle_text, hc, htext, hl, hno room hl]

/-- C4, witness: room "R1" has one receiver; `send_text{code:"R1", text:"hi"}`
relays the full payload to group "R1_recv". -/
theorem c4_witness :
    (truthy (some "R1") = true ∧ ((some "hi" : Option String).getD "" ≠ "") ∧
      lookup [("R1", ⟨[], ["B"]⟩)] "R1" = some ⟨[], ["B"]⟩ ∧
      (Room.mk [] ["B"]).receivers ≠ []) ∧
    handle_text "A" ⟨some "R1", some "hi"⟩ [("R1", ⟨[], ["B"]⟩)] =
      [⟨"receive_text", Payload.textData ⟨some "R1", some "hi"⟩, Target.group ("R1" ++ "_recv")⟩] :=
  ⟨⟨by decide, by decide, by decide, by decide⟩,
   (c4_send_text "A" ⟨some "R1", some "hi"⟩ [("R1", ⟨[], ["B"]⟩)]).2.1
     (by decide) (by decide) ⟨[], ["B"]⟩ (by decide) (by decide)⟩

/-! ### Claim C7 -/

/-- C7: `send_live_control` behavior. If `code` or `control` is falsy, exactly
one error "Invalid live control payload" goes to the sending connection. If
both are present and the room exists with at least one receiver, the full
payload is relayed as `receive_live_control` to the `{code}_recv` group.
Otherwise exactly one error "No receivers in room" goes to the sender. -/
theorem c7_live_control (sid : String) (d : ControlData) (reg : Registry) :
    ((truthy d.code = false ∨ truthy d.control = false) →
      handle_live_control sid d reg =
        [⟨"error", Payload.message "Invalid live control payload", Target.conn sid⟩]) ∧
    (truthy d.code = true → truthy d.control = true →
      ∀ room, lookup reg (d.code.getD "") = some room → room.receivers ≠ [] →
        handle_live_control sid d reg =
          [⟨"receive_live_control", Payload.controlData d,
            Target.group (d.code.getD "" ++ "_recv")⟩]) ∧
    (truthy d.code = true → truthy d.control = true →
      (∀ room, lookup reg (d.code.getD "") = some room → room.receivers = []) →
      handle_live_control sid d reg =
        [⟨"error", Payload.message "No receivers in room", Target.conn sid⟩]) := by
  refine ⟨?_, ?_, ?_⟩
  · intro h
    rcases h with h | h <;> simp [handle_live_control, h]
  · intro hc hctl room hl hrecv
    simp [handle_live_control, hc, hctl, hl, hrecv]
  · intro hc hctl hno
    cases hl : lookup reg (d.code.getD "") with
    | none => simp [handle_live_control, hc, hctl, hl]
    | some room => simp [handle_live_control, hc, hctl, hl, hno room hl]

/-- C7, witness: missing `control` yields the invalid-payload error. -/
theorem c7_witness :
    (truthy (some "R") = false ∨ truthy (none : Option String) = false) ∧
    handle_live_control "A" ⟨some "R", none⟩ [("R", ⟨[], ["B"]⟩)] =
      [⟨"error", Payload.message "Invalid live control payload", Target.conn "A"⟩] :=
  ⟨Or.inr (by decide),
   (c7_live_control "A" ⟨some "R", none⟩ [("R", ⟨[], ["B"]⟩)]).1 (Or.inr (by decide))⟩

/-! ### Claim C5 -/

/-- C5, counterexample: the claim's idempotent no-op clause fails as stated.
The registry state holding an empty room "R" is reachable (a single join with
the unknown type "spectator" creates it); connection "B" is in no room, yet
`handle_disconnect "B"` mutates the registry — it deletes room "R", because
the source's empty-room cleanup runs for every room regardless of whether the
disconnecting connection was a member. -/
theorem c5_counterexample :
    run [Op.join "A" ⟨some "R", some "spectator"⟩] [] = [("R", ⟨[], []⟩)] ∧
    "B" ∉ (Room.mk [] []).senders ∧ "B" ∉ (Room.mk [] []).receivers ∧
    (handle_disconnect "B" [("R", ⟨[], []⟩)]).1 ≠ [("R", ⟨[], []⟩)] := by
  decide

/-- C5, amended: on disconnect of `sid`, (1) the resulting registry keeps each
room, in order, with `sid` removed from whichever role-lists contain it
(`discRoom`), dropping exactly those rooms whose two lists are both empty
after removal — including rooms that were already empty before the disconnect;
(2) `room_status {status:"sender_left"}` is emitted to `{code}_recv` exactly
for the rooms whose senders list contains `sid` and whose receivers list is
non-empty at the moment of the check (before `sid` is removed from
receivers); (3) a disconnect of a connection present in no room mutates
nothing and emits nothing, provided no registry entry has both role-sets
already empty. -/
theorem c5_disconnect_removal (sid : String) (reg : Registry) :
    (handle_disconnect sid reg).1 = reg.filterMap (fun p =>
      if (discRoom sid p.2).senders = [] ∧ (discRoom sid p.2).receivers = [] then none
      else some (p.1, discRoom sid p.2)) ∧
    (handle_disconnect sid reg).2 = reg.flatMap (fun p =>
      if sid ∈ p.2.senders ∧ p.2.receivers ≠ [] then [senderLeftEmit p.1] else []) ∧
    ((∀ p ∈ reg, (sid ∉ p.2.senders ∧ sid ∉ p.2.receivers) ∧
        (p.2.senders ≠ [] ∨ p.2.receivers ≠ [])) →
      handle_disconnect sid reg = (reg, [])) :=
  ⟨handle_disconnect_fst sid reg, handle_disconnect_snd sid reg,
   handle_disconnect_noop sid reg⟩

/-- C5, witness: the no-op clause applied at a concrete state — "Z" is in no
room of a registry whose single room is non-empty, and the disconnect returns
the registry unchanged with no emission. -/
theorem c5_witness :
    (∀ p ∈ [("R", (⟨["A"], ["B"]⟩ : Room))],
        ("Z" ∉ p.2.senders ∧ "Z" ∉ p.2.receivers) ∧
        (p.2.senders ≠ [] ∨ p.2.receivers ≠ [])) ∧
    handle_disconnect "Z" [("R", ⟨["A"], ["B"]⟩)] = ([("R", ⟨["A"], ["B"]⟩)], []) :=
  ⟨by decide, (c5_disconnect_removal "Z" [("R", ⟨["A"], ["B"]⟩)]).2.2 (by decide)⟩

/-! ### Claim C8 machinery -/

def nodupInv (reg : Registry) : Prop :=
  ∀ p ∈ reg, p.2.senders.Nodup ∧ p.2.receivers.Nodup

theorem joinRoomUpd_nodup {room : Room} (sid dt : String)
    (hs : room.senders.Nodup) (hr : room.receivers.Nodup) :
    (joinRoomUpd sid dt room).senders.Nodup ∧ (joinRoomUpd sid dt room).receivers.Nodup := by
  by_cases h1 : dt = "sender"
  · simp [joinRoomUpd, h1]
    exact ⟨nodup_addIfAbsent hs, hr⟩
  · by_cases h2 : dt = "receiver"
    · simp [joinRoomUpd, h1, h2]
      exact ⟨hs, nodup_addIfAbsent hr⟩
    · simp [joinRoomUpd, h1, h2]
      exact ⟨hs, hr⟩

theorem applyOp_nodup {reg : Registry} {op : Op} (hInv : nodupInv reg) :
    nodupInv (applyOp reg op) := by
  cases op with
  | join sid d =>
    by_cases hc : truthy d.code = true
    · by_cases ht : truthy d.type = true
      · intro p hp
        rcases mem_on_join_reg hc ht hp with h' | ⟨room, hpe, hbase⟩
        · exact hInv p h'
        · have hroom : room.senders.Nodup ∧ room.receivers.Nodup := by
            rcases hbase with hb | hb
            · exact hInv _ hb
            · rw [hb]; exact ⟨List.nodup_nil, List.nodup_nil⟩
          rw [hpe]
          exact joinRoomUpd_nodup sid (d.type.getD "") hroom.1 hroom.2
      · have := on_join_invalid sid d reg (Or.inr (by simpa using ht))
        simp only [applyOp, this]
        exact hInv
    · have := on_join_invalid sid d reg (Or.inl (by simpa using hc))
      simp only [applyOp, this]
      exact hInv
  | disc sid =>
    intro p hp
    simp only [applyOp, handle_disconnect_fst] at hp
    rcases List.mem_filterMap.mp hp with ⟨q, hq, hfq⟩
    by_cases h : (discRoom sid q.2).senders = [] ∧ (discRoom sid q.2).receivers = []
    · simp [h] at hfq
    · simp [h] at hfq
      rw [← hfq]
      have hq' := hInv q hq
      constructor
      · simp only [discRoom]
        by_cases hm : sid ∈ q.2.senders
        · simp [hm]; exact hq'.1.erase sid
        · simp [hm]; exact hq'.1
      · simp only [discRoom]
        by_cases hm : sid ∈ q.2.receivers
        · simp [hm]; exact hq'.2.erase sid
        · simp [hm]; exact hq'.2
  | text sid d => exact hInv
  | live sid d => exact hInv

theorem nodupInv_run {ops : List Op} {reg : Registry} (h0 : nodupInv reg) :
    nodupInv (run ops reg) := by
  induction ops generalizing reg with
  | nil => exact h0
  | cons o rest ih => exact ih (applyOp_nodup h0)

theorem joinRoomUpd_idem (sid dt : String) (room : Room) :
    joinRoomUpd sid dt (joinRoomUpd sid dt room) = joinRoomUpd sid dt room := by
  by_cases h1 : dt = "sender"
  · simp [joinRoomUpd, h1, addIfAbsent_of_mem (mem_addIfAbsent_self sid room.senders)]
  · by_cases h2 : dt = "receiver"
    · simp [joinRoomUpd, h1, h2, addIfAbsent_of_mem (mem_addIfAbsent_self sid room.receivers)]
    · simp [joinRoomUpd, h1, h2]

theorem on_join_reg_idem (sid : String) (d : JoinData) (reg : Registry) :
    (on_join sid d (on_join sid d reg).reg).reg = (on_join sid d reg).reg := by
  by_cases hc : truthy d.code = true
  · by_cases ht : truthy d.type = true
    · have h1 := on_join_reg_valid sid d reg hc ht
      have hl1 : lookup (on_join sid d reg).reg (d.code.getD "") =
          some (joinRoomUpd sid (d.type.getD "")
            ((lookup (ensureRoom reg (d.code.getD "")) (d.code.getD "")).getD ⟨[], []⟩)) := by
        rw [h1]; exact lookup_setRoom_self _ _ _
      have h2 := on_join_reg_valid sid d (on_join sid d reg).reg hc ht
      rw [h2]
      have hens : ensureRoom (on_join sid d reg).reg (d.code.getD "") =
          (on_join sid d reg).reg := by
        simp [ensureRoom, hl1]
      rw [hens, hl1]
      simp only [Option.getD_some]
      rw [joinRoomUpd_idem]
      exact setRoom_self _ _ _ hl1
    · have h := on_join_invalid sid d reg (Or.inr (by simpa using ht))
      have h' := on_join_invalid sid d (on_join sid d reg).reg (Or.inr (by simpa using ht))
      rw [h', h]
  · have h := on_join_invalid sid d reg (Or.inl (by simpa using hc))
    have h' := on_join_invalid sid d (on_join sid d reg).reg (Or.inl (by simpa using hc))
    rw [h', h]

/-! ### Claim C8 -/

/-- C8: join is idempotent. (1) Starting from the empty registry, after any
sequence of operations every room's senders list and receivers list contain
each Connection ID at most once (the lists are duplicate-free). (2) Repeating
the same `join_room` request (same connection, code and type) leaves the
registry in the same state as performing it once. -/
theorem c8_join_idempotent :
    (∀ ops : List Op, ∀ p ∈ run ops [], p.2.senders.Nodup ∧ p.2.receivers.Nodup) ∧
    (∀ (reg : Registry) (sid : String) (d : JoinData),
      applyOp (applyOp reg (Op.join sid d)) (Op.join sid d) =
        applyOp reg (Op.join sid d)) :=
  ⟨fun _ => nodupInv_run (fun p hp => absurd hp (List.not_mem_nil p)),
   fun reg sid d => on_join_reg_idem sid d reg⟩

/-- C8, witness at a concrete sequence and a concrete repeated join. -/
theorem c8_witness :
    (("R", (⟨["A"], []⟩ : Room)) ∈ run [Op.join "A" ⟨some "R", some "sender"⟩] []) ∧
    ((⟨["A"], []⟩ : Room).senders.Nodup ∧ (⟨["A"], []⟩ : Room).receivers.Nodup) ∧
    applyOp (applyOp [] (Op.join "A" ⟨some "R", some "sender"⟩))
        (Op.join "A" ⟨some "R", some "sender"⟩) =
      applyOp [] (Op.join "A" ⟨some "R", some "sender"⟩) :=
  ⟨by decide,
   c8_join_idempotent.1 [Op.join "A" ⟨some "R", some "sender"⟩] ("R", ⟨["A"], []⟩) (by decide),
   c8_join_idempotent.2 [] "A" ⟨some "R", some "sender"⟩⟩

/-! ### Claim C3 machinery -/

theorem truthy_eq_some {o : Option String} (h : truthy o = true) :
    o = some (o.getD "") := by
  cases o with
  | none => simp [truthy] at h
  | some s => rfl

theorem discRoom_senders_subset (sid : String) (room : Room) :
    (discRoom sid room).senders ⊆ room.senders := by
  by_cases h : sid ∈ room.senders
  · simp [discRoom, h, List.erase_subset]
  · simp [discRoom, h]

theorem discRoom_receivers_subset (sid : String) (room : Room) :
    (discRoom sid room).receivers ⊆ room.receivers := by
  by_cases h : sid ∈ room.receivers
  · simp [discRoom, h, List.erase_subset]
  · simp [discRoom, h]

/-- `o` is a join of connection `s` into room `rc` under role `role` that
passes the handler's validation. -/
def isJoinAs (o : Op) (s rc role : String) : Prop :=
  match o with
  | Op.join s' d => s' = s ∧ d.code = some rc ∧ truthy d.code = true ∧ d.type = some role
  | _ => False

instance (o : Op) (s rc role : String) : Decidable (isJoinAs o s rc role) :=
  match o with
  | Op.join s' d => inferInstanceAs (Decidable
      (s' = s ∧ d.code = some rc ∧ truthy d.code = true ∧ d.type = some role))
  | Op.disc _ => inferInstanceAs (Decidable False)
  | Op.text _ _ => inferInstanceAs (Decidable False)
  | Op.live _ _ => inferInstanceAs (Decidable False)

theorem isJoinAs_elim {o : Op} {s rc role : String} (h : isJoinAs o s rc role) :
    ∃ d, o = Op.join s d ∧ d.code = some rc ∧ truthy d.code = true ∧ d.type = some role := by
  cases o with
  | join s' d =>
    obtain ⟨h1, h2, h3, h4⟩ := h
    exact ⟨d, by rw [h1], h2, h3, h4⟩
  | disc _ => exact absurd h (fun h => h)
  | text _ _ => exact absurd h (fun h => h)
  | live _ _ => exact absurd h (fun h => h)

/-- `o1` and `o2` are validated joins of the same connection into the same
room, the first as "sender" and the second as "receiver". -/
def conflictPair (o1 o2 : Op) : Prop :=
  match o1, o2 with
  | Op.join s1 d1, Op.join s2 d2 =>
      s1 = s2 ∧ d1.code = d2.code ∧ truthy d1.code = true ∧
        d1.type = some "sender" ∧ d2.type = some "receiver"
  | _, _ => False

instance (o1 o2 : Op) : Decidable (conflictPair o1 o2) :=
  match o1, o2 with
  | Op.join s1 d1, Op.join s2 d2 => inferInstanceAs (Decidable
      (s1 = s2 ∧ d1.code = d2.code ∧ truthy d1.code = true ∧
        d1.type = some "sender" ∧ d2.type = some "receiver"))
  | Op.join _ _, Op.disc _ => inferInstanceAs (Decidable False)
  | Op.join _ _, Op.text _ _ => inferInstanceAs (Decidable False)
  | Op.join _ _, Op.live _ _ => inferInstanceAs (Decidable False)
  | Op.disc _, _ => inferInstanceAs (Decidable False)
  | Op.text _ _, _ => inferInstanceAs (Decidable False)
  | Op.live _ _, _ => inferInstanceAs (Decidable False)

theorem disjointInv_run (ops : List Op) :
    ∀ reg : Registry,
      disjointInv reg →
      (∀ p ∈ reg, ∀ s ∈ p.2.senders, ∀ o ∈ ops, ¬ isJoinAs o s p.1 "receiver") →
      (∀ p ∈ reg, ∀ s ∈ p.2.receivers, ∀ o ∈ ops, ¬ isJoinAs o s p.1 "sender") →
      (∀ o1 ∈ ops, ∀ o2 ∈ ops, ¬ conflictPair o1 o2) →
      disjointInv (run ops reg) := by
  induction ops with
  | nil =>
    intro reg hA _ _ _
    exact hA
  | cons o rest ih =>
    intro reg hA hB hC hP
    have hPr : ∀ o1 ∈ rest, ∀ o2 ∈ rest, ¬ conflictPair o1 o2 :=
      fun o1 h1 o2 h2 => hP o1 (List.mem_cons_of_mem _ h1) o2 (List.mem_cons_of_mem _ h2)
    show disjointInv (run rest (applyOp reg o))
    cases o with
    | text sid d =>
      exact ih reg hA
        (fun p hp s hs o' ho' => hB p hp s hs o' (List.mem_cons_of_mem _ ho'))
        (fun p hp s hs o' ho' => hC p hp s hs o' (List.mem_cons_of_mem _ ho'))
        hPr
    | live sid d =>
      exact ih reg hA
        (fun p hp s hs o' ho' => hB p hp s hs o' (List.mem_cons_of_mem _ ho'))
        (fun p hp s hs o' ho' => hC p hp s hs o' (List.mem_cons_of_mem _ ho'))
        hPr
    | disc sid =>
      have hmem : ∀ p ∈ applyOp reg (Op.disc sid),
          ∃ q ∈ reg, p = (q.1, discRoom sid q.2) := by
        intro p hp
        simp only [applyOp, handle_disconnect_fst] at hp
        rcases List.mem_filterMap.mp hp with ⟨q, hq, hfq⟩
        by_cases hcase : (discRoom sid q.2).senders = [] ∧ (discRoom sid q.2).receivers = []
        · simp [hcase] at hfq
        · simp [hcase] at hfq
          exact ⟨q, hq, hfq.symm⟩
      apply ih
      · intro p hp s hs hr
        rcases hmem p hp with ⟨q, hq, hpe⟩
        rw [hpe] at hs hr
        exact hA q hq s (discRoom_senders_subset sid q.2 hs)
          (discRoom_receivers_subset sid q.2 hr)
      · intro p hp s hs o' ho' hja
        rcases hmem p hp with ⟨q, hq, hpe⟩
        rw [hpe] at hs hja
        exact hB q hq s (discRoom_senders_subset sid q.2 hs) o'
          (List.mem_cons_of_mem _ ho') hja
      · intro p hp s hs o' ho' hja
        rcases hmem p hp with ⟨q, hq, hpe⟩
        rw [hpe] at hs hja
        exact hC q hq s (discRoom_receivers_subset sid q.2 hs) o'
          (List.mem_cons_of_mem _ ho') hja
      · exact hPr
    | join sid d =>
      by_cases hc : truthy d.code = true
      · by_cases ht : truthy d.type = true
        · have hcode : d.code = some (d.code.getD "") := truthy_eq_some hc
          have htype : d.type = some (d.type.getD "") := truthy_eq_some ht
          have hmem : ∀ p ∈ applyOp reg (Op.join sid d),
              p ∈ reg ∨ ∃ room, p = (d.code.getD "", joinRoomUpd sid (d.type.getD "") room) ∧
                ((d.code.getD "", room) ∈ reg ∨ room = ⟨[], []⟩) :=
            fun p hp => mem_on_join_reg hc ht hp
          have hheadmem : Op.join sid d ∈ Op.join sid d :: rest := List.mem_cons_self _ _
          apply ih
          · -- the two role-sets stay disjoint after this join
            intro p hp s hs hr
            rcases hmem p hp with hpin | ⟨room, hpe, hbase⟩
            · exact hA p hpin s hs hr
            · rw [hpe] at hs hr
              by_cases hdt1 : d.type.getD "" = "sender"
              · have hupd : joinRoomUpd sid (d.type.getD "") room =
                    ⟨addIfAbsent sid room.senders, room.receivers⟩ := by
                  simp [joinRoomUpd, hdt1]
                rw [hupd] at hs hr
                have hs' : s ∈ addIfAbsent sid room.senders := hs
                have hr' : s ∈ room.receivers := hr
                rcases mem_addIfAbsent hs' with hssid | hsmem
                · rcases hbase with hbin | hbemp
                  · refine hC _ hbin sid ?_ (Op.join sid d) hheadmem
                      ⟨rfl, hcode, hc, by rw [htype, hdt1]⟩
                    rw [hssid] at hr'
                    exact hr'
                  · rw [hbemp] at hr'
                    simp at hr'
                · rcases hbase with hbin | hbemp
                  · exact hA _ hbin s hsmem hr'
                  · rw [hbemp] at hsmem
                    simp at hsmem
              · by_cases hdt2 : d.type.getD "" = "receiver"
                · have hupd : joinRoomUpd sid (d.type.getD "") room =
                      ⟨room.senders, addIfAbsent sid room.receivers⟩ := by
                    simp [joinRoomUpd, hdt1, hdt2]
                  rw [hupd] at hs hr
                  have hs' : s ∈ room.senders := hs
                  have hr' : s ∈ addIfAbsent sid room.receivers := hr
                  rcases mem_addIfAbsent hr' with hrsid | hrmem
                  · rcases hbase with hbin | hbemp
                    · refine hB _ hbin s hs' (Op.join sid d) hheadmem ?_
                      rw [hrsid]
                      exact ⟨rfl, hcode, hc, by rw [htype, hdt2]⟩
                    · rw [hbemp] at hs'
                      simp at hs'
                  · rcases hbase with hbin | hbemp
                    · exact hA _ hbin s hs' hrmem
                    · rw [hbemp] at hs'
                      simp at hs'
                · have hupd : joinRoomUpd sid (d.type.getD "") room = room := by
                    simp [joinRoomUpd, hdt1, hdt2]
                  rw [hupd] at hs hr
                  rcases hbase with hbin | hbemp
                  · exact hA _ hbin s hs hr
                  · rw [hbemp] at hs
                    simp at hs
          · -- members of a senders list have no receiver-join among later ops
            intro p hp s hs o' ho' hja
            have hja' : isJoinAs o' s p.1 "receiver" := hja
            rcases hmem p hp with hpin | ⟨room, hpe, hbase⟩
            · exact hB p hpin s hs o' (List.mem_cons_of_mem _ ho') hja'
            · rw [hpe] at hs
              have hja2 : isJoinAs o' s (d.code.getD "") "receiver" := by
                rw [hpe] at hja
                exact hja
              by_cases hdt1 : d.type.getD "" = "sender"
              · have hupd : joinRoomUpd sid (d.type.getD "") room =
                    ⟨addIfAbsent sid room.senders, room.receivers⟩ := by
                  simp [joinRoomUpd, hdt1]
                rw [hupd] at hs
                have hs' : s ∈ addIfAbsent sid room.senders := hs
                rcases mem_addIfAbsent hs' with hssid | hsmem
                · rcases isJoinAs_elim hja2 with ⟨d', ho'eq, hd'code, hd'truthy, hd'type⟩
                  refine hP (Op.join sid d) hheadmem o' (List.mem_cons_of_mem _ ho') ?_
                  rw [ho'eq, hssid]
                  exact ⟨rfl, by rw [hd'code]; exact hcode, hc, by rw [htype, hdt1], hd'type⟩
                · rcases hbase with hbin | hbemp
                  · exact hB _ hbin s hsmem o' (List.mem_cons_of_mem _ ho') hja2
                  · rw [hbemp] at hsmem
                    simp at hsmem
              · have hsenders : (joinRoomUpd sid (d.type.getD "") room).senders =
                    room.senders := by
                  by_cases hdt2 : d.type.getD "" = "receiver" <;>
                    simp [joinRoomUpd, hdt1, hdt2]
                rw [hsenders] at hs
                rcases hbase with hbin | hbemp
                · exact hB _ hbin s hs o' (List.mem_cons_of_mem _ ho') hja2
                · rw [hbemp] at hs
                  simp at hs
          · -- members of a receivers list have no sender-join among later ops
            intro p hp s hs o' ho' hja
            have hja' : isJoinAs o' s p.1 "sender" := hja
            rcases hmem p hp with hpin | ⟨room, hpe, hbase⟩
            · exact hC p hpin s hs o' (List.mem_cons_of_mem _ ho') hja'
            · rw [hpe] at hs
              have hja2 : isJoinAs o' s (d.code.getD "") "sender" := by
                rw [hpe] at hja
                exact hja
              by_cases hdt2 : d.type.getD "" = "receiver"
              · have hdt1 : d.type.getD "" ≠ "sender" := by rw [hdt2]; decide
                have hupd : joinRoomUpd sid (d.type.getD "") room =
                    ⟨room.senders, addIfAbsent sid room.receivers⟩ := by
                  simp [joinRoomUpd, hdt1, hdt2]
                rw [hupd] at hs
                have hs' : s ∈ addIfAbsent sid room.receivers := hs
                rcases mem_addIfAbsent hs' with hssid | hsmem
                · rcases isJoinAs_elim hja2 with ⟨d', ho'eq, hd'code, hd'truthy, hd'type⟩
                  refine hP o' (List.mem_cons_of_mem _ ho') (Op.join sid d) hheadmem ?_
                  rw [ho'eq, hssid]
                  exact ⟨rfl, by rw [hd'code]; exact hcode.symm, hd'truthy, hd'type,
                    by rw [htype, hdt2]⟩
                · rcases hbase with hbin | hbemp
                  · exact hC _ hbin s hsmem o' (List.mem_cons_of_mem _ ho') hja2
                  · rw [hbemp] at hsmem
                    simp at hsmem
              · have hrecv : (joinRoomUpd sid (d.type.getD "") room).receivers =
                    room.receivers := by
                  by_cases hdt1 : d.type.getD "" = "sender" <;>
                    simp [joinRoomUpd, hdt1, hdt2]
                rw [hrecv] at hs
                rcases hbase with hbin | hbemp
                · exact hC _ hbin s hs o' (List.mem_cons_of_mem _ ho') hja2
                · rw [hbemp] at hs
                  simp at hs
          · exact hPr
        · have hinv := on_join_invalid sid d reg (Or.inr (by simpa using ht))
          have heq : applyOp reg (Op.join sid d) = reg := by
            simp [applyOp, hinv]
          rw [heq]
          exact ih reg hA
            (fun p hp s hs o' ho' => hB p hp s hs o' (List.mem_cons_of_mem _ ho'))
            (fun p hp s hs o' ho' => hC p hp s hs o' (List.mem_cons_of_mem _ ho'))
            hPr
      · have hinv := on_join_invalid sid d reg (Or.inl (by simpa using hc))
        have heq : applyOp reg (Op.join sid d) = reg := by
          simp [applyOp, hinv]
        rw [heq]
        exact ih reg hA
          (fun p hp s hs o' ho' => hB p hp s hs o' (List.mem_cons_of_mem _ ho'))
          (fun p hp s hs o' ho' => hC p hp s hs o' (List.mem_cons_of_mem _ ho'))
          hPr

/-! ### Claim C3 -/

/-- C3, counterexample: the claim fails as stated. Joining room "R" as
"sender" and then as "receiver" with the same connection "A" leaves "A" in
both role-sets of "R": `on_join` adds to the requested role's list without
ever removing the connection from the other list. -/
theorem c3_counterexample :
    ¬ disjointInv (run [Op.join "A" ⟨some "R", some "sender"⟩,
                        Op.join "A" ⟨some "R", some "receiver"⟩] []) := by
  decide

/-- C3, amended: starting from the empty registry, after every sequence of
operations each Connection ID appears in at most one of the two role-sets
of any given room, provided no connection issues validated join_room
requests for the same room code under both roles; when it does (join as
"sender" then as "receiver" on the same code, as in the counterexample),
the connection is left in both sets. -/
theorem c3_role_sets_disjoint (ops : List Op)
    (h : ∀ o1 ∈ ops, ∀ o2 ∈ ops, ¬ conflictPair o1 o2) :
    disjointInv (run ops []) :=
  disjointInv_run ops []
    (fun p hp => absurd hp (List.not_mem_nil p))
    (fun p hp => absurd hp (List.not_mem_nil p))
    (fun p hp => absurd hp (List.not_mem_nil p))
    h

/-- C3, witness for the amended theorem: two different connections joining
room "R" under the two roles — no conflict, and the resulting role-sets are
disjoint. -/
theorem c3_witness :
    (∀ o1 ∈ [Op.join "A" ⟨some "R", some "sender"⟩,
             Op.join "B" ⟨some "R", some "receiver"⟩, Op.disc "A"],
       ∀ o2 ∈ [Op.join "A" ⟨some "R", some "sender"⟩,
               Op.join "B" ⟨some "R", some "receiver"⟩, Op.disc "A"],
         ¬ conflictPair o1 o2) ∧
    disjointInv (run [Op.join "A" ⟨some "R", some "sender"⟩,
                      Op.join "B" ⟨some "R", some "receiver"⟩, Op.disc "A"] []) :=
  ⟨by decide, c3_role_sets_disjoint _ (by decide)⟩
